import Mathlib

/-!
Verification of the docbrown temporal graph view layer.

The development shallow-embeds `src/docbrown/core/src/graphview.rs`
(the `GraphViewInternals` and `GraphView` traits and the `WindowedView`
wrapper) together with the enums of `src/docbrown/core/src/lib.rs`.
The shard store (`TemporalGraph`), the vertex view layer
(`vertexview.rs`), the adjacency sets (`tadjset.rs`), the state vector
(`state.rs`) and the error enum (`error.rs`) are referenced by
`graphview.rs` but their files are not part of the snapshot; those
parts are modelled from the specification, and each such definition is
marked in its doc comment.

Iterators are embedded as lists, Rust `i64` timestamps as `Int`
(the embedded operations only compare timestamps and take `max`/`min`,
so no overflow arises), `u64` global ids and `usize` counts as `Nat`,
and the panicking `todo!()` bodies as `Option`-valued functions
returning `none`.
-/

/-- Half-open time interval from Rust `std::ops::Range<i64>`.
The field `stop` renders Rust's field `end`, a Lean keyword. -/
@[ext]
structure IRange where
  start : Int
  stop : Int
deriving DecidableEq, Repr

/-- Edge direction, from `docbrown/core/src/lib.rs` (`enum Direction`). -/
inductive Direction where
  | OUT
  | IN
  | BOTH
deriving DecidableEq, Repr

/-- Tagged scalar property value, from `docbrown/core/src/lib.rs`
(`enum Prop`; renamed because `Prop` is a Lean keyword).  The floating
point payloads are carried as their IEEE bit patterns so that equality
of values is decidable; no embedded operation computes with them. -/
inductive PropValue where
  | Str (s : String)
  | I32 (v : Int)
  | I64 (v : Int)
  | U32 (v : Nat)
  | U64 (v : Nat)
  | F32 (bits : Nat)
  | F64 (bits : Nat)
  | Bool (b : Bool)
deriving DecidableEq, Repr

/-- Modelled from the spec: `tadjset.rs` (`AdjEdge`) is not under `src/`.
An edge reference is a local edge index or a remote marker carrying the
neighbour's global id (spec section 3, "EdgeRef"). -/
inductive AdjEdge where
  | localE (idx : Nat)
  | remote (gid : Nat)
deriving DecidableEq, Repr

/-- Modelled from the spec: `vertexview.rs` is not under `src/`.
A `VertexPointer` is the logical handle `{ pid, window: Option<Range<i64>> }`
passed through the view layer (spec section 3).  The graph reference a
`VertexView` additionally carries is dropped: `as_view_of` only rebinds
that reference and no observable query result depends on it. -/
structure VertexPointer where
  pid : Nat
  w : Option IRange
deriving DecidableEq, Repr

/-- Modelled from the spec: `vertexview.rs` is not under `src/`.
`with_window` replaces the pointer's window, as used by every
`WindowedView` method that forwards `vertex.with_window(actual_window)`. -/
def VertexPointer.with_window (v : VertexPointer) (w : IRange) : VertexPointer :=
  ⟨v.pid, some w⟩

/-- Modelled from the spec: `error.rs` (`GraphError`) is not under `src/`.
The error taxonomy of spec section 7. -/
inductive GraphError where
  | StateSizeError
  | PropTypeMismatch
  | UnknownProperty
  | UnknownVertex
  | ShardMismatch
deriving DecidableEq, Repr

/-- Modelled from the spec: `tcell.rs` is not under `src/`.  A temporal
cell is the list of `(time, value)` pairs recorded for one entity, in
insertion order (spec section 4.1). -/
abbrev TCell (α : Type) : Type := List (Int × α)

/-- Modelled from the spec: `TCell::set(t, v)` records a new entry. -/
def TCell.set (c : TCell α) (t : Int) (v : α) : TCell α :=
  c ++ [(t, v)]

/-- Modelled from the spec: `TCell::iter_window(w)` keeps the entries
with `w.start ≤ t < w.end` (spec section 4.1). -/
def TCell.iter_window (c : TCell α) (w : IRange) : TCell α :=
  c.filter (fun p => decide (w.start ≤ p.1) && decide (p.1 < w.stop))

/-- Window restriction of a cell by an optional window: `none` keeps the
full history, matching a `VertexPointer` that carries no window. -/
def TCell.iter_opt (c : TCell α) (w : Option IRange) : TCell α :=
  match w with
  | some wr => c.iter_window wr
  | none => c

/-- Modelled from the spec: `tadjset.rs` is not under `src/`.  A
time-indexed adjacency set is an ordered collection of
`(neighbour_pid, TCell<EdgeRef>)` pairs kept sorted by `neighbour_pid`
(spec section 4.3). -/
abbrev TAdjSet : Type := List (Nat × TCell AdjEdge)

/-- Modelled from the spec: `TAdjSet::push(t, neighbour, edge_ref)`
locates or inserts the neighbour, keeping the collection sorted by pid,
then appends `(t, edge_ref)` to its cell (spec section 4.3). -/
def TAdjSet.push (t : Int) (n : Nat) (e : AdjEdge) : TAdjSet → TAdjSet
  | [] => [(n, [(t, e)])]
  | (m, cell) :: rest =>
    if n < m then (n, [(t, e)]) :: (m, cell) :: rest
    else if n = m then (m, TCell.set cell t e) :: rest
    else (m, cell) :: TAdjSet.push t n e rest

/-- Earliest entry of a cell restricted by an optional window, backing
the spec's `edges(w) → (neighbour, EdgeRef, first_time_in_w)` triples
(spec section 4.3). -/
def firstInWindow (w : Option IRange) (cell : TCell AdjEdge) : Option (Int × AdjEdge) :=
  (cell.iter_opt w).head?

/-- Neighbours of one direction visible through an optional window, each
paired with the edge reference of its earliest in-window entry; a
neighbour is emitted at most once (spec section 4.3, window iteration). -/
def TAdjSet.pairs (adj : TAdjSet) (w : Option IRange) : List (Nat × AdjEdge) :=
  adj.filterMap (fun p => (firstInWindow w p.2).map (fun te => (p.1, te.2)))

/-- Edge triple produced by the adjacency iterators: neighbour pid, edge
reference and earliest in-window time (spec section 4.3). -/
structure EdgeRepr where
  nbr : Nat
  ref : AdjEdge
  time : Int
deriving DecidableEq, Repr

/-- Edge triples of one direction visible through an optional window
(spec section 4.3, `edges(w)`). -/
def TAdjSet.edge_triples (adj : TAdjSet) (w : Option IRange) : List EdgeRepr :=
  adj.filterMap (fun p => (firstInWindow w p.2).map (fun te => ⟨p.1, te.2, te.1⟩))

/-- Modelled from the spec: the vertex slot of the shard store,
`{gid, props, out_adj, in_adj}` (spec section 4.4). -/
structure Vertex where
  gid : Nat
  props : List (String × TCell PropValue)
  out_adj : TAdjSet
  in_adj : TAdjSet
deriving DecidableEq, Repr

/-- Modelled from the spec: `tgraph`/`graph.rs` (`TemporalGraph`) is not
under `src/`.  State of one shard store (spec section 4.4): dense vertex
vector indexed by pid, gid-to-pid mapping, dense local edge records, and
the time index mapping each timestamp to the pids touched at it. -/
structure TG where
  vertices : List Vertex
  gid_to_pid : List (Nat × Nat)
  edges : List (Nat × Nat)
  time_index : List (Int × List Nat)
deriving DecidableEq, Repr

/-- Empty shard store, `TemporalGraph::default()`. -/
def TG.empty : TG := ⟨[], [], [], []⟩

/-- Shard-local dense id of a global id, when the vertex exists. -/
def TG.pid_of (tg : TG) (gid : Nat) : Option Nat :=
  (tg.gid_to_pid.find? (fun p => p.1 == gid)).map (fun p => p.2)

/-- Record in the time index that `pid` was touched at `t`, keeping the
index sorted by time and each pid listed once per time. -/
def timeIndexAdd (t : Int) (pid : Nat) : List (Int × List Nat) → List (Int × List Nat)
  | [] => [(t, [pid])]
  | (s, pids) :: rest =>
    if t < s then (t, [pid]) :: (s, pids) :: rest
    else if t = s then (s, if pids.contains pid then pids else pids ++ [pid]) :: rest
    else (s, pids) :: timeIndexAdd t pid rest

/-- Allocate a pid for `gid` on first sight and record the touch at `t`
(spec section 4.4, `add_vertex`). -/
def TG.ensure_vertex (tg : TG) (t : Int) (gid : Nat) : TG × Nat :=
  match tg.pid_of gid with
  | some pid => ({ tg with time_index := timeIndexAdd t pid tg.time_index }, pid)
  | none =>
      let pid := tg.vertices.length
      ({ tg with
          vertices := tg.vertices ++ [⟨gid, [], [], []⟩],
          gid_to_pid := tg.gid_to_pid ++ [(gid, pid)],
          time_index := timeIndexAdd t pid tg.time_index }, pid)

/-- Modelled from the spec: `TemporalGraph::add_vertex`.  The argument
order `(gid, t)` matches the call sites in the `graphview.rs` tests
(`g.add_vertex(1, 0)` adds global id 1 at time 0). -/
def TG.add_vertex (tg : TG) (gid : Nat) (t : Int) : TG :=
  (tg.ensure_vertex t gid).1

/-- Replace the element at one position of a list, leaving other
positions and out-of-range indices unchanged. -/
def listModify (f : α → α) : Nat → List α → List α
  | _, [] => []
  | 0, x :: xs => f x :: xs
  | n + 1, x :: xs => x :: listModify f n xs

/-- Index of the local edge record for `(spid, dpid)`, if present. -/
def TG.edge_index (tg : TG) (spid dpid : Nat) : Option Nat :=
  tg.edges.findIdx? (fun p => p.1 == spid && p.2 == dpid)

/-- Modelled from the spec: `TemporalGraph::add_edge` with argument
order `(src, dst, t)` matching the `graphview.rs` test call sites.
Both endpoints are ensured at `t`, the edge record for `(src_pid,
dst_pid)` is located or allocated (an edge is identified within a shard
by its endpoint pids, spec section 3), `dst` is pushed into the source's
out-adjacency and `src` into the destination's in-adjacency at `t`. -/
def TG.add_edge (tg : TG) (src dst : Nat) (t : Int) : TG :=
  let p1 := tg.ensure_vertex t src
  let p2 := p1.1.ensure_vertex t dst
  let spid := p1.2
  let dpid := p2.2
  let tg2 := p2.1
  let eidx := (tg2.edge_index spid dpid).getD tg2.edges.length
  let tg3 :=
    match tg2.edge_index spid dpid with
    | some _ => tg2
    | none => { tg2 with edges := tg2.edges ++ [(spid, dpid)] }
  let tg4 :=
    { tg3 with vertices :=
        listModify (fun v => { v with out_adj := TAdjSet.push t dpid (AdjEdge.localE eidx) v.out_adj }) spid tg3.vertices }
  { tg4 with vertices :=
      listModify (fun v => { v with in_adj := TAdjSet.push t spid (AdjEdge.localE eidx) v.in_adj }) dpid tg4.vertices }

/-- The graph of `graph_view_tests::make_mini_graph` in `graphview.rs`:
vertices 1, 2 at time 0 and 3 at time 1, edges 1→2 at 0, 2→1 at 0 and
2→3 at 1. -/
def make_mini_graph : TG :=
  (((((TG.empty.add_vertex 1 0).add_vertex 2 0).add_vertex 3 1).add_edge 1 2 0).add_edge 2 1 0).add_edge 2 3 1

/-- Default vertex slot used when a pointer's pid is out of range; the
spec (section 7, `UnknownVertex`) makes such pointers unreachable for
well-formed handles. -/
def emptyVertex : Vertex := ⟨0, [], [], []⟩

/-- Vertex slot at a pid. -/
def TG.vertex_at (tg : TG) (pid : Nat) : Vertex :=
  tg.vertices.getD pid emptyVertex

/-- Modelled from the spec: a vertex is active in a window when the time
index records a touch of its pid at some time inside the window
("did this vertex receive any event in w", spec section 4.4). -/
def TG.active_in (tg : TG) (pid : Nat) (w : IRange) : Bool :=
  tg.time_index.any (fun p =>
    decide (w.start ≤ p.1) && decide (p.1 < w.stop) && p.2.contains pid)

/-- Neighbour/edge-reference pairs of one direction of a vertex, seen
through the pointer's optional window.  `BOTH` is `OUT ∪ IN` with
de-duplication by `(neighbour, edge_ref)` (spec section 4.4). -/
def dirPairs (v : Vertex) (w : Option IRange) : Direction → List (Nat × AdjEdge)
  | Direction.OUT => v.out_adj.pairs w
  | Direction.IN => v.in_adj.pairs w
  | Direction.BOTH => (v.out_adj.pairs w ++ v.in_adj.pairs w).dedup

/-- Edge triples of one direction of a vertex through the pointer's
optional window; `BOTH` de-duplicates as for neighbours. -/
def dirTriples (v : Vertex) (w : Option IRange) : Direction → List EdgeRepr
  | Direction.OUT => v.out_adj.edge_triples w
  | Direction.IN => v.in_adj.edge_triples w
  | Direction.BOTH => (v.out_adj.edge_triples w ++ v.in_adj.edge_triples w).dedup

/-- Modelled from the spec: `TemporalGraph::degree` honours the
pointer's window (trait doc in `graphview.rs`) and counts the
neighbours with a non-empty cell restricted to it (spec section 4.3). -/
def TG.degree (tg : TG) (ptr : VertexPointer) (d : Direction) : Nat :=
  (dirPairs (tg.vertex_at ptr.pid) ptr.w d).length

/-- Modelled from the spec: `TemporalGraph::neighbours`.  The produced
vertex views keep the pointer's window, so chained traversals honour
it. -/
def TG.neighbours (tg : TG) (ptr : VertexPointer) (d : Direction) : List VertexPointer :=
  (dirPairs (tg.vertex_at ptr.pid) ptr.w d).map (fun p => ⟨p.1, ptr.w⟩)

/-- Modelled from the spec: `TemporalGraph::edges`. -/
def TG.edges_of (tg : TG) (ptr : VertexPointer) (d : Direction) : List EdgeRepr :=
  dirTriples (tg.vertex_at ptr.pid) ptr.w d

/-- Modelled from the spec: `TemporalGraph::property_history` returns
the window-restricted slice of the named temporal property, or none
when the property was never written (spec section 4.4). -/
def TG.property_history (tg : TG) (ptr : VertexPointer) (name : String) : Option (List (Int × PropValue)) :=
  ((tg.vertex_at ptr.pid).props.find? (fun p => p.1 == name)).map (fun p => p.2.iter_opt ptr.w)

/-- Modelled from the spec: unwindowed vertex iteration is ordered by
pid (spec section 4.4, `iter_vertices`). -/
def TG.iter_vertices (tg : TG) : List VertexPointer :=
  (List.range tg.vertices.length).map (fun pid => ⟨pid, none⟩)

/-- Modelled from the spec: windowed vertex iteration walks the time
index entries inside the window in time order and yields each touched
pid once, with the window attached (spec section 4.4). -/
def TG.iter_vertices_window (tg : TG) (w : IRange) : List VertexPointer :=
  ((tg.time_index.filter (fun p =>
      decide (w.start ≤ p.1) && decide (p.1 < w.stop))).map (fun p => p.2)).flatten.dedup.map
    (fun pid => ⟨pid, some w⟩)

/-- Modelled from the spec: `TemporalGraph::vertex` looks the global id
up and returns an unwindowed view of it. -/
def TG.vertex (tg : TG) (gid : Nat) : Option VertexPointer :=
  (tg.pid_of gid).map (fun pid => ⟨pid, none⟩)

/-- Modelled from the spec: `TemporalGraph::vertex_window` returns a
view of the vertex when it received an event inside the window. -/
def TG.vertex_window (tg : TG) (gid : Nat) (w : IRange) : Option VertexPointer :=
  (tg.pid_of gid).bind (fun pid => if tg.active_in pid w then some ⟨pid, some w⟩ else none)

/-- Record of the `GraphViewInternals` trait of `graphview.rs`: one
field per method, iterators embedded as lists.  The overridable
provided methods (`local_n_vertices`, `local_n_edges`,
`local_n_vertices_window`, `local_n_edges_window`, `contains_vertex`,
`contains_vertex_window`) are fields as well, since `WindowedView`
overrides the first four. -/
@[ext]
structure GVI where
  vertex : Nat → Option VertexPointer
  vertex_window : Nat → IRange → Option VertexPointer
  contains_vertex : Nat → Bool
  contains_vertex_window : Nat → IRange → Bool
  iter_vertices : List VertexPointer
  iter_vertices_window : IRange → List VertexPointer
  degree : VertexPointer → Direction → Nat
  neighbours : VertexPointer → Direction → List VertexPointer
  edges : VertexPointer → Direction → List EdgeRepr
  property_history : VertexPointer → String → Option (List (Int × PropValue))
  local_n_vertices : Nat
  local_n_edges : Direction → Nat
  local_n_vertices_window : IRange → Nat
  local_n_edges_window : IRange → Direction → Nat

/-- Sum of the per-vertex degrees of one direction over a list of
vertex views: the `iter.in_degree().sum()` / `iter.out_degree().sum()`
combinator chains of the `local_n_edges` default bodies.  The
combinators live in the missing `vertexview.rs`; modelled from the
spec: `out_degree`/`in_degree` map each vertex view to its windowed
degree (spec section 4.6). -/
def edgeSum (tg : TG) (vs : List VertexPointer) (d : Direction) : Nat :=
  (vs.map (fun v => tg.degree v d)).sum

/-- View of a single shard store through the `GraphViewInternals`
trait.  The required methods are the shard store's; the provided
methods keep their default bodies from `graphview.rs` lines 69-114:
`local_n_vertices` counts `iter_vertices`, `local_n_edges` sums
degrees per direction with `BOTH` the sum of the `IN` and `OUT` counts,
and `contains_vertex` tests `vertex(gid).is_some()`. -/
def baseGVI (tg : TG) : GVI where
  vertex := tg.vertex
  vertex_window := tg.vertex_window
  contains_vertex := fun gid => (tg.vertex gid).isSome
  contains_vertex_window := fun gid w => (tg.vertex_window gid w).isSome
  iter_vertices := tg.iter_vertices
  iter_vertices_window := tg.iter_vertices_window
  degree := tg.degree
  neighbours := tg.neighbours
  edges := tg.edges_of
  property_history := tg.property_history
  local_n_vertices := tg.iter_vertices.length
  local_n_edges := fun d =>
    match d with
    | Direction.IN => edgeSum tg tg.iter_vertices Direction.IN
    | Direction.OUT => edgeSum tg tg.iter_vertices Direction.OUT
    | Direction.BOTH =>
        edgeSum tg tg.iter_vertices Direction.IN + edgeSum tg tg.iter_vertices Direction.OUT
  local_n_vertices_window := fun w => (tg.iter_vertices_window w).length
  local_n_edges_window := fun w d =>
    match d with
    | Direction.IN => edgeSum tg (tg.iter_vertices_window w) Direction.IN
    | Direction.OUT => edgeSum tg (tg.iter_vertices_window w) Direction.OUT
    | Direction.BOTH =>
        edgeSum tg (tg.iter_vertices_window w) Direction.IN
          + edgeSum tg (tg.iter_vertices_window w) Direction.OUT

/-- `WindowedView::actual_window` (`graphview.rs` lines 190-197): the
window actually applied is the intersection of the view's window with
the query's window, or the view's window when the query carries none. -/
def actualWindow (window : IRange) (w : Option IRange) : IRange :=
  match w with
  | some wr => ⟨max wr.start window.start, min wr.stop window.stop⟩
  | none => window

/-- Intersection of two half-open windows,
`[max(a.start, b.start), min(a.end, b.end))`. -/
def interW (a b : IRange) : IRange :=
  ⟨max a.start b.start, min a.stop b.stop⟩

/-- The `GraphViewInternals` implementation of `WindowedView`
(`graphview.rs` lines 180-286).  Every required method forwards to the
wrapped view with the intersected window; the count methods are the
overrides of lines 204-221; `contains_vertex`/`contains_vertex_window`
keep their trait defaults, here unfolded over this view's own
`vertex`/`vertex_window`.  The `as_view_of` maps only rebind the graph
reference, which the embedding drops. -/
def windowed (g : GVI) (window : IRange) : GVI where
  vertex := fun gid => g.vertex_window gid window
  vertex_window := fun gid w => g.vertex_window gid (actualWindow window (some w))
  contains_vertex := fun gid => (g.vertex_window gid window).isSome
  contains_vertex_window := fun gid w => (g.vertex_window gid (actualWindow window (some w))).isSome
  iter_vertices := g.iter_vertices_window window
  iter_vertices_window := fun w => g.iter_vertices_window (actualWindow window (some w))
  degree := fun v d => g.degree (v.with_window (actualWindow window v.w)) d
  neighbours := fun v d => g.neighbours (v.with_window (actualWindow window v.w)) d
  edges := fun v d => g.edges (v.with_window (actualWindow window v.w)) d
  property_history := fun v name => g.property_history (v.with_window (actualWindow window v.w)) name
  local_n_vertices := g.local_n_vertices_window window
  local_n_edges := fun d => g.local_n_edges_window window d
  local_n_vertices_window := fun w => g.local_n_vertices_window (actualWindow window (some w))
  local_n_edges_window := fun w d => g.local_n_edges_window (actualWindow window (some w)) d

/-- The concrete `GraphViewInternals` implementors of the snapshot: a
base view over a shard store, or a `WindowedView` over any of them
(spec section 9, "Polymorphic views"). -/
inductive View where
  | base (tg : TG)
  | win (inner : View) (w : IRange)

/-- Interpretation of a view as its trait record. -/
def View.interp : View → GVI
  | View.base tg => baseGVI tg
  | View.win v w => windowed v.interp w

/-- Rust struct `WindowedView` itself (graph reference and window),
instantiated at a shard store, for the methods of the `GraphView`
trait it implements with `todo!()` bodies. -/
structure WindowedViewTG where
  graph : TG
  window : IRange

/-- `WindowedView::n_nodes` (`graphview.rs` lines 292-294): the body is
`todo!()`, so the call panics and produces no count; the panic is
embedded as `none`. -/
def WindowedViewTG.n_nodes (_v : WindowedViewTG) : Option Nat := none

/-- `WindowedView::n_edges` (`graphview.rs` lines 296-298): the body is
`todo!()`, embedded as `none`. -/
def WindowedViewTG.n_edges (_v : WindowedViewTG) : Option Nat := none

/-- `GraphView::new_state_from` (`graphview.rs` lines 170-177): collect
the iterator into a state vector and compare its length with the
view's `n_nodes`.  The state vector (`state.rs` is not under `src/`) is
modelled from the spec as the dense list of collected items, whose
`len` is the item count; the `n_nodes` of the view is taken as a
parameter since no implementation under `src/` computes it (the
`WindowedView` bodies are `todo!()`). -/
def new_state_from (n_nodes : Nat) (iter : List α) : Except GraphError (List α) :=
  let state := iter
  if state.length = n_nodes then Except.ok state else Except.error GraphError.StateSizeError

/-- Projection of the windowed view's intersection when the inner
query carries no window: the view's own window is used unchanged. -/
theorem actualWindow_none (wdw : IRange) : actualWindow wdw none = wdw := rfl

/-- Intersection of windows commutes. -/
theorem interW_comm (a b : IRange) : interW a b = interW b a := by
  unfold interW
  rw [max_comm, min_comm]

/-- Applying `actual_window` to an explicit inner window computes the
intersection of the two windows. -/
theorem actual_nest_none (a b : IRange) : actualWindow a (some b) = interW a b := by
  show interW b a = interW a b
  exact interW_comm b a

/-- Two nested `actual_window` applications on an explicit query window
collapse to one application of the intersected view window. -/
theorem actual_nest_some (a b wr : IRange) :
    actualWindow a (some (actualWindow b (some wr))) = actualWindow (interW a b) (some wr) := by
  apply IRange.ext <;> simp [actualWindow, interW] <;> omega

/-- Nesting of `actual_window` over any optional query window equals a
single `actual_window` of the intersected view window. -/
theorem actual_window_nest (a b : IRange) (w : Option IRange) :
    actualWindow a (some (actualWindow b w)) = actualWindow (interW a b) w := by
  cases w with
  | none => exact actual_nest_none a b
  | some wr => exact actual_nest_some a b wr

/-- C1: for every `WindowedView` with window `w`, a query carrying an
inner window `wi` (from a `VertexPointer` or an explicit `*_window`
call) is evaluated under the intersection
`[max(wi.start, w.start), min(wi.end, w.end))`, and a query carrying no
inner window is evaluated under `w` itself. -/
theorem claim_window_intersection (g : GVI) (w wi : IRange) (p gid : Nat) (d : Direction) :
    actualWindow w (some wi) = ⟨max wi.start w.start, min wi.stop w.stop⟩
  ∧ actualWindow w none = w
  ∧ (windowed g w).degree ⟨p, some wi⟩ d
      = g.degree ⟨p, some ⟨max wi.start w.start, min wi.stop w.stop⟩⟩ d
  ∧ (windowed g w).degree ⟨p, none⟩ d = g.degree ⟨p, some w⟩ d
  ∧ (windowed g w).neighbours ⟨p, some wi⟩ d
      = g.neighbours ⟨p, some ⟨max wi.start w.start, min wi.stop w.stop⟩⟩ d
  ∧ (windowed g w).vertex_window gid wi
      = g.vertex_window gid ⟨max wi.start w.start, min wi.stop w.stop⟩
  ∧ (windowed g w).iter_vertices_window wi
      = g.iter_vertices_window ⟨max wi.start w.start, min wi.stop w.stop⟩
  ∧ (windowed g w).iter_vertices = g.iter_vertices_window w
  ∧ (windowed g w).vertex gid = g.vertex_window gid w :=
  ⟨rfl, rfl, rfl, rfl, rfl, rfl, rfl, rfl, rfl⟩

/-- C2: `WindowedView::n_nodes` and `n_edges` have `todo!()` bodies and
never return the windowed counts; on the test graph windowed to
`[0, 1)` the claimed value of `n_nodes` would be 2 (the windowed vertex
count that `local_n_vertices_window` computes), but both calls panic
(embedded as `none`). -/
theorem claim_windowed_counts_unimplemented :
    WindowedViewTG.n_nodes ⟨make_mini_graph, ⟨0, 1⟩⟩ = none
  ∧ WindowedViewTG.n_edges ⟨make_mini_graph, ⟨0, 1⟩⟩ = none
  ∧ (baseGVI make_mini_graph).local_n_vertices_window ⟨0, 1⟩ = 2 :=
  ⟨rfl, rfl, by decide⟩

/-- C3: windowing an already-windowed view again equals windowing once
with the intersection — every trait method of
`window(w1).window(w2)` coincides with the one of
`window(max(w1.start, w2.start), min(w1.end, w2.end))` — and the
intersection is associative. -/
theorem claim_window_nesting (g : GVI) (w1 w2 : IRange) :
    windowed (windowed g w1) w2 = windowed g (interW w1 w2)
  ∧ ∀ u v wr : IRange, interW (interW u v) wr = interW u (interW v wr) := by
  constructor
  · apply GVI.ext
    · funext gid
      show g.vertex_window gid (actualWindow w1 (some w2)) = g.vertex_window gid (interW w1 w2)
      rw [actual_nest_none]
    · funext gid wr
      show g.vertex_window gid (actualWindow w1 (some (actualWindow w2 (some wr))))
        = g.vertex_window gid (actualWindow (interW w1 w2) (some wr))
      rw [actual_window_nest]
    · funext gid
      show (g.vertex_window gid (actualWindow w1 (some w2))).isSome
        = (g.vertex_window gid (interW w1 w2)).isSome
      rw [actual_nest_none]
    · funext gid wr
      show (g.vertex_window gid (actualWindow w1 (some (actualWindow w2 (some wr))))).isSome
        = (g.vertex_window gid (actualWindow (interW w1 w2) (some wr))).isSome
      rw [actual_window_nest]
    · show g.iter_vertices_window (actualWindow w1 (some w2))
        = g.iter_vertices_window (interW w1 w2)
      rw [actual_nest_none]
    · funext wr
      show g.iter_vertices_window (actualWindow w1 (some (actualWindow w2 (some wr))))
        = g.iter_vertices_window (actualWindow (interW w1 w2) (some wr))
      rw [actual_window_nest]
    · funext v d
      show g.degree ⟨v.pid, some (actualWindow w1 (some (actualWindow w2 v.w)))⟩ d
        = g.degree ⟨v.pid, some (actualWindow (interW w1 w2) v.w)⟩ d
      rw [actual_window_nest]
    · funext v d
      show g.neighbours ⟨v.pid, some (actualWindow w1 (some (actualWindow w2 v.w)))⟩ d
        = g.neighbours ⟨v.pid, some (actualWindow (interW w1 w2) v.w)⟩ d
      rw [actual_window_nest]
    · funext v d
      show g.edges ⟨v.pid, some (actualWindow w1 (some (actualWindow w2 v.w)))⟩ d
        = g.edges ⟨v.pid, some (actualWindow (interW w1 w2) v.w)⟩ d
      rw [actual_window_nest]
    · funext v nm
      show g.property_history ⟨v.pid, some (actualWindow w1 (some (actualWindow w2 v.w)))⟩ nm
        = g.property_history ⟨v.pid, some (actualWindow (interW w1 w2) v.w)⟩ nm
      rw [actual_window_nest]
    · show g.local_n_vertices_window (actualWindow w1 (some w2))
        = g.local_n_vertices_window (interW w1 w2)
      rw [actual_nest_none]
    · funext d
      show g.local_n_edges_window (actualWindow w1 (some w2)) d
        = g.local_n_edges_window (interW w1 w2) d
      rw [actual_nest_none]
    · funext wr
      show g.local_n_vertices_window (actualWindow w1 (some (actualWindow w2 (some wr))))
        = g.local_n_vertices_window (actualWindow (interW w1 w2) (some wr))
      rw [actual_window_nest]
    · funext wr d
      show g.local_n_edges_window (actualWindow w1 (some (actualWindow w2 (some wr)))) d
        = g.local_n_edges_window (actualWindow (interW w1 w2) (some wr)) d
      rw [actual_window_nest]
  · intro u v wr
    show IRange.mk (max (max u.start v.start) wr.start) (min (min u.stop v.stop) wr.stop)
      = IRange.mk (max u.start (max v.start wr.start)) (min u.stop (min v.stop wr.stop))
    rw [max_assoc, min_assoc]

/-- C7: `new_state_from` returns `Ok` with the collected state vector
exactly when the number of collected items equals the view's `n_nodes`,
and `Err(StateSizeError)` exactly when it differs. -/
theorem claim_new_state_from {α : Type} (n : Nat) (l : List α) :
    (new_state_from n l = Except.ok l ↔ l.length = n)
  ∧ (new_state_from n l = Except.error GraphError.StateSizeError ↔ l.length ≠ n) := by
  unfold new_state_from
  by_cases h : l.length = n <;> simp [h]

/-- Instantiation of the `new_state_from` contract: a two-element list
is accepted when `n_nodes = 2` and rejected when `n_nodes = 3`. -/
theorem claim_new_state_from_witness :
    new_state_from 2 [10, 20] = Except.ok [10, 20]
  ∧ new_state_from 3 [10, 20] = Except.error GraphError.StateSizeError :=
  ⟨(claim_new_state_from 2 [10, 20]).1.mpr rfl,
   (claim_new_state_from 3 [10, 20]).2.mpr (by decide)⟩

/-- Modelled from the spec: the `id()` iterator combinator of the
missing `vertexview.rs` maps each vertex view to its vertex's global
id (spec section 4.6). -/
def ids_of (tg : TG) (l : List VertexPointer) : List Nat :=
  l.map (fun v => (tg.vertices.getD v.pid emptyVertex).gid)

/-- C8: on the test graph, `G.window(0,1).vertices().id()` yields
exactly the ids 1 and 2, in pid order (pids 0 and 1), matching the
assertion of `graph_view_tests::test_vertex_window`. -/
theorem claim_mini_graph_window_ids :
    ids_of make_mini_graph ((windowed (baseGVI make_mini_graph) ⟨0, 1⟩).iter_vertices) = [1, 2]
  ∧ ((windowed (baseGVI make_mini_graph) ⟨0, 1⟩).iter_vertices).map VertexPointer.pid = [0, 1] := by
  constructor <;> decide

/-- C9: on every view of the snapshot, `contains_vertex(gid)` holds
exactly when `vertex(gid)` is `Some`, and `contains_vertex_window`
exactly when `vertex_window` is `Some` (the trait defaults of
`graphview.rs` lines 108-114, inherited by `WindowedView`). -/
theorem claim_contains_iff (v : View) (gid : Nat) (w : IRange) :
    (v.interp.contains_vertex gid = (v.interp.vertex gid).isSome)
  ∧ (v.interp.contains_vertex gid = true ↔ ∃ x, v.interp.vertex gid = some x)
  ∧ (v.interp.contains_vertex_window gid w = (v.interp.vertex_window gid w).isSome)
  ∧ (v.interp.contains_vertex_window gid w = true ↔ ∃ x, v.interp.vertex_window gid w = some x) := by
  have h1 : v.interp.contains_vertex gid = (v.interp.vertex gid).isSome := by
    cases v <;> rfl
  have h2 : v.interp.contains_vertex_window gid w = (v.interp.vertex_window gid w).isSome := by
    cases v <;> rfl
  refine ⟨h1, ?_, h2, ?_⟩
  · rw [h1]
    exact Option.isSome_iff_exists
  · rw [h2]
    exact Option.isSome_iff_exists

/-- C10: on every view of the snapshot the `BOTH` edge counts are the
plain sums of the `IN` and `OUT` counts, with no de-duplication, both
unwindowed and windowed (`graphview.rs` lines 76-101, and the
`WindowedView` overrides that forward to them). -/
theorem claim_both_edge_count_sum (v : View) :
    (v.interp.local_n_edges Direction.BOTH
       = v.interp.local_n_edges Direction.IN + v.interp.local_n_edges Direction.OUT)
  ∧ ∀ w : IRange, v.interp.local_n_edges_window w Direction.BOTH
       = v.interp.local_n_edges_window w Direction.IN
         + v.interp.local_n_edges_window w Direction.OUT := by
  induction v with
  | base tg => exact ⟨rfl, fun _ => rfl⟩
  | win inner w2 ih => exact ⟨ih.2 w2, fun w => ih.2 (actualWindow w2 (some w))⟩

/-- A window with `start ≥ end` admits no timestamp: the range scan of
a cell is empty. -/
theorem iter_window_of_empty (c : TCell α) (w : IRange) (h : w.stop ≤ w.start) :
    c.iter_window w = [] := by
  apply List.filter_eq_nil_iff.mpr
  intro a _
  simp only [Bool.and_eq_true, decide_eq_true_eq]
  rintro ⟨h1, h2⟩
  omega

/-- Through an empty window no neighbour has an in-window entry. -/
theorem pairs_of_empty (adj : TAdjSet) (w : IRange) (h : w.stop ≤ w.start) :
    adj.pairs (some w) = [] := by
  apply List.filterMap_eq_nil_iff.mpr
  intro p _
  simp [firstInWindow, TCell.iter_opt, iter_window_of_empty p.2 w h]

/-- Through an empty window no edge triple is produced. -/
theorem edge_triples_of_empty (adj : TAdjSet) (w : IRange) (h : w.stop ≤ w.start) :
    adj.edge_triples (some w) = [] := by
  apply List.filterMap_eq_nil_iff.mpr
  intro p _
  simp [firstInWindow, TCell.iter_opt, iter_window_of_empty p.2 w h]

/-- No vertex is active in an empty window. -/
theorem active_in_of_empty (tg : TG) (pid : Nat) (w : IRange) (h : w.stop ≤ w.start) :
    tg.active_in pid w = false := by
  apply List.any_eq_false.mpr
  intro p _
  simp only [Bool.and_eq_true, decide_eq_true_eq]
  rintro ⟨⟨h1, h2⟩, -⟩
  omega

/-- Looking a vertex up through an empty window yields nothing. -/
theorem vertex_window_of_empty (tg : TG) (gid : Nat) (w : IRange) (h : w.stop ≤ w.start) :
    tg.vertex_window gid w = none := by
  unfold TG.vertex_window
  cases hp : tg.pid_of gid with
  | none => rfl
  | some pid => simp [active_in_of_empty tg pid w h]

/-- Windowed vertex iteration over an empty window is empty. -/
theorem iter_vertices_window_of_empty (tg : TG) (w : IRange) (h : w.stop ≤ w.start) :
    tg.iter_vertices_window w = [] := by
  unfold TG.iter_vertices_window
  have hf : tg.time_index.filter (fun p => decide (w.start ≤ p.1) && decide (p.1 < w.stop)) = [] := by
    apply List.filter_eq_nil_iff.mpr
    intro p _
    simp only [Bool.and_eq_true, decide_eq_true_eq]
    rintro ⟨h1, h2⟩
    omega
  rw [hf]
  rfl

/-- Degree through a pointer whose window is empty is zero, in every
direction. -/
theorem degree_of_empty (tg : TG) (p : Nat) (w : IRange) (d : Direction) (h : w.stop ≤ w.start) :
    tg.degree ⟨p, some w⟩ d = 0 := by
  unfold TG.degree
  cases d <;> simp [dirPairs, pairs_of_empty _ w h]

/-- Neighbour iteration through a pointer whose window is empty is
empty, in every direction. -/
theorem neighbours_of_empty (tg : TG) (p : Nat) (w : IRange) (d : Direction) (h : w.stop ≤ w.start) :
    tg.neighbours ⟨p, some w⟩ d = [] := by
  unfold TG.neighbours
  cases d <;> simp [dirPairs, pairs_of_empty _ w h]

/-- Edge iteration through a pointer whose window is empty is empty, in
every direction. -/
theorem edges_of_empty (tg : TG) (p : Nat) (w : IRange) (d : Direction) (h : w.stop ≤ w.start) :
    tg.edges_of ⟨p, some w⟩ d = [] := by
  unfold TG.edges_of
  cases d <;> simp [dirTriples, edge_triples_of_empty _ w h]

/-- Intersecting any view window with an empty query window stays
empty. -/
theorem actualWindow_of_empty (w2 w : IRange) (h : w.stop ≤ w.start) :
    (actualWindow w2 (some w)).stop ≤ (actualWindow w2 (some w)).start := by
  simp only [actualWindow]
  omega

/-- Every query of every view of the snapshot evaluated under an empty
window (start ≥ end) is empty, by induction over the view tower. -/
theorem empty_window_aux (v : View) :
    ∀ w : IRange, w.stop ≤ w.start →
      (v.interp.iter_vertices_window w = [])
    ∧ (∀ gid, v.interp.vertex_window gid w = none)
    ∧ (∀ gid, v.interp.contains_vertex_window gid w = false)
    ∧ (∀ p d, v.interp.degree ⟨p, some w⟩ d = 0)
    ∧ (∀ p d, v.interp.neighbours ⟨p, some w⟩ d = [])
    ∧ (∀ p d, v.interp.edges ⟨p, some w⟩ d = [])
    ∧ (v.interp.local_n_vertices_window w = 0) := by
  induction v with
  | base tg =>
      intro w h
      refine ⟨iter_vertices_window_of_empty tg w h,
        fun gid => vertex_window_of_empty tg gid w h,
        fun gid => ?_,
        fun p d => degree_of_empty tg p w d h,
        fun p d => neighbours_of_empty tg p w d h,
        fun p d => edges_of_empty tg p w d h, ?_⟩
      · show (tg.vertex_window gid w).isSome = false
        rw [vertex_window_of_empty tg gid w h]
        rfl
      · show (tg.iter_vertices_window w).length = 0
        rw [iter_vertices_window_of_empty tg w h]
        rfl
  | win inner w2 ih =>
      intro w h
      have h2 := actualWindow_of_empty w2 w h
      obtain ⟨i1, i2, i3, i4, i5, i6, i7⟩ := ih (actualWindow w2 (some w)) h2
      refine ⟨i1, fun gid => i2 gid, fun gid => ?_,
        fun p d => i4 p d, fun p d => i5 p d, fun p d => i6 p d, i7⟩
      show (inner.interp.vertex_window gid (actualWindow w2 (some w))).isSome = false
      rw [i2 gid]
      rfl

/-- C6: on every view of the snapshot, a window with start ≥ end makes
every query empty: windowed vertex iteration, vertex lookup, degree,
neighbour and edge iteration all yield nothing, `contains` is false,
and a `WindowedView` built with such a window has empty unwindowed
queries as well; all of these are total functions, so no query returns
an error. -/
theorem claim_empty_window (v : View) (w : IRange) (gid p : Nat) (d : Direction)
    (h : w.stop ≤ w.start) :
    v.interp.iter_vertices_window w = []
  ∧ v.interp.vertex_window gid w = none
  ∧ v.interp.contains_vertex_window gid w = false
  ∧ v.interp.degree ⟨p, some w⟩ d = 0
  ∧ v.interp.neighbours ⟨p, some w⟩ d = []
  ∧ v.interp.edges ⟨p, some w⟩ d = []
  ∧ v.interp.local_n_vertices_window w = 0
  ∧ (windowed v.interp w).iter_vertices = []
  ∧ (windowed v.interp w).vertex gid = none
  ∧ (windowed v.interp w).contains_vertex gid = false
  ∧ (windowed v.interp w).degree ⟨p, none⟩ d = 0
  ∧ (windowed v.interp w).neighbours ⟨p, none⟩ d = []
  ∧ (windowed v.interp w).edges ⟨p, none⟩ d = []
  ∧ (windowed v.interp w).local_n_vertices = 0 := by
  obtain ⟨i1, i2, i3, i4, i5, i6, i7⟩ := empty_window_aux v w h
  refine ⟨i1, i2 gid, i3 gid, i4 p d, i5 p d, i6 p d, i7, i1, i2 gid, ?_, i4 p d, i5 p d, i6 p d, i7⟩
  show (v.interp.vertex_window gid w).isSome = false
  rw [i2 gid]
  rfl

/-- Instantiation of the empty-window guarantee on the test graph with
the reversed window `[1, 0)`. -/
theorem claim_empty_window_witness :
    ((1 : Int) ≤ 1)
  ∧ (View.base make_mini_graph).interp.iter_vertices_window ⟨1, 0⟩ = []
  ∧ (View.base make_mini_graph).interp.degree ⟨1, some ⟨1, 0⟩⟩ Direction.BOTH = 0
  ∧ (View.base make_mini_graph).interp.contains_vertex_window 2 ⟨1, 0⟩ = false :=
  ⟨le_refl 1,
   (claim_empty_window (View.base make_mini_graph) ⟨1, 0⟩ 2 1 Direction.BOTH (by decide)).1,
   (claim_empty_window (View.base make_mini_graph) ⟨1, 0⟩ 2 1 Direction.BOTH (by decide)).2.2.2.1,
   (claim_empty_window (View.base make_mini_graph) ⟨1, 0⟩ 2 1 Direction.BOTH (by decide)).2.2.1⟩

/-- Every pair produced by the windowed neighbour iterator carries a
key of the adjacency set. -/
theorem mem_pairs_key {adj : TAdjSet} {w : Option IRange} {x : Nat × AdjEdge}
    (hx : x ∈ adj.pairs w) : x.1 ∈ adj.map (fun p => p.1) := by
  simp only [TAdjSet.pairs, List.mem_filterMap] at hx
  obtain ⟨a, ha, hfa⟩ := hx
  rw [Option.map_eq_some'] at hfa
  obtain ⟨te, _, hx1⟩ := hfa
  rw [← hx1]
  exact List.mem_map.mpr ⟨a, ha, rfl⟩

/-- When the adjacency keys are distinct (they are a sorted mapping),
the windowed neighbour pairs are distinct. -/
theorem pairs_nodup (adj : TAdjSet) (w : Option IRange)
    (h : (adj.map (fun p => p.1)).Nodup) : (adj.pairs w).Nodup := by
  induction adj with
  | nil => simp [TAdjSet.pairs]
  | cons a rest ih =>
      rw [List.map_cons, List.nodup_cons] at h
      obtain ⟨hna, hrest⟩ := h
      cases hfw : firstInWindow w a.2 with
      | none =>
          have he : TAdjSet.pairs (a :: rest) w = TAdjSet.pairs rest w := by
            simp [TAdjSet.pairs, List.filterMap_cons, hfw]
          rw [he]
          exact ih hrest
      | some te =>
          have he : TAdjSet.pairs (a :: rest) w = (a.1, te.2) :: TAdjSet.pairs rest w := by
            simp [TAdjSet.pairs, List.filterMap_cons, hfw]
          rw [he, List.nodup_cons]
          refine ⟨fun hx => ?_, ih hrest⟩
          exact hna (mem_pairs_key hx)

/-- Length of the de-duplication of an append of two duplicate-free
lists: at most the sum of the lengths, with equality exactly when the
lists are disjoint. -/
theorem dedup_append_card {α : Type} [DecidableEq α] (a b : List α)
    (ha : a.Nodup) (hb : b.Nodup) :
    ((a ++ b).dedup.length ≤ a.length + b.length)
  ∧ (((a ++ b).dedup.length = a.length + b.length) ↔ ∀ x ∈ a, x ∉ b) := by
  have hd : (a ++ b).dedup.length = ((a ++ b).toFinset).card := (List.card_toFinset (a ++ b)).symm
  have hu : (a ++ b).toFinset = a.toFinset ∪ b.toFinset := List.toFinset_append
  have hca : a.toFinset.card = a.length := List.toFinset_card_of_nodup ha
  have hcb : b.toFinset.card = b.length := List.toFinset_card_of_nodup hb
  have hkey : (a.toFinset ∪ b.toFinset).card + (a.toFinset ∩ b.toFinset).card
      = a.length + b.length := by
    rw [Finset.card_union_add_card_inter, hca, hcb]
  have hiff : (a.toFinset ∩ b.toFinset).card = 0 ↔ ∀ x ∈ a, x ∉ b := by
    rw [Finset.card_eq_zero, Finset.eq_empty_iff_forall_not_mem]
    constructor
    · intro h x hxa hxb
      exact h x (Finset.mem_inter.mpr ⟨List.mem_toFinset.mpr hxa, List.mem_toFinset.mpr hxb⟩)
    · intro h x hx
      rw [Finset.mem_inter, List.mem_toFinset, List.mem_toFinset] at hx
      exact h x hx.1 hx.2
  rw [hd, hu]
  constructor
  · omega
  · constructor
    · intro he
      exact hiff.mp (by omega)
    · intro hdisj
      have := hiff.mpr hdisj
      omega

/-- C5, counterexample: in the test graph restricted to the window
`[0, 1)`, vertex pid 0 (gid 1) has the edges 1→2 and 2→1 active, so
its neighbour 2 (pid 1) appears in both directions and yet
`degree(BOTH) = degree(OUT) + degree(IN)` because the two directions
carry distinct edge references; the both-direction neighbour also
appears twice, not once.  This refutes both the claimed equality
condition and the claimed single appearance. -/
theorem claim_both_degree_counterexample :
    (make_mini_graph.degree ⟨0, some ⟨0, 1⟩⟩ Direction.BOTH
       = make_mini_graph.degree ⟨0, some ⟨0, 1⟩⟩ Direction.OUT
         + make_mini_graph.degree ⟨0, some ⟨0, 1⟩⟩ Direction.IN)
  ∧ ((make_mini_graph.neighbours ⟨0, some ⟨0, 1⟩⟩ Direction.OUT).map VertexPointer.pid = [1])
  ∧ ((make_mini_graph.neighbours ⟨0, some ⟨0, 1⟩⟩ Direction.IN).map VertexPointer.pid = [1])
  ∧ ((make_mini_graph.neighbours ⟨0, some ⟨0, 1⟩⟩ Direction.BOTH).map VertexPointer.pid = [1, 1])
  ∧ ¬(make_mini_graph.degree ⟨0, some ⟨0, 1⟩⟩ Direction.BOTH
        = make_mini_graph.degree ⟨0, some ⟨0, 1⟩⟩ Direction.OUT
          + make_mini_graph.degree ⟨0, some ⟨0, 1⟩⟩ Direction.IN
      ↔ ∀ n ∈ (make_mini_graph.neighbours ⟨0, some ⟨0, 1⟩⟩ Direction.OUT).map VertexPointer.pid,
          n ∉ (make_mini_graph.neighbours ⟨0, some ⟨0, 1⟩⟩ Direction.IN).map VertexPointer.pid) := by
  decide

/-- C5, amended: for every window and vertex,
`degree(BOTH) ≤ degree(OUT) + degree(IN)`, with equality exactly when
no `(neighbour, edge_ref)` pair appears in both directions within the
window; the BOTH direction de-duplicates by `(neighbour, edge_ref)`,
so a self-loop (same edge reference in both directions) appears once,
while a vertex that is both an in- and an out-neighbour via two
distinct directed edges appears twice. -/
theorem claim_both_degree_amended (tg : TG) (ptr : VertexPointer)
    (hout : ((tg.vertex_at ptr.pid).out_adj.map (fun p => p.1)).Nodup)
    (hin : ((tg.vertex_at ptr.pid).in_adj.map (fun p => p.1)).Nodup) :
    tg.degree ptr Direction.BOTH ≤ tg.degree ptr Direction.OUT + tg.degree ptr Direction.IN
  ∧ (tg.degree ptr Direction.BOTH = tg.degree ptr Direction.OUT + tg.degree ptr Direction.IN
       ↔ ∀ x ∈ (tg.vertex_at ptr.pid).out_adj.pairs ptr.w,
           x ∉ (tg.vertex_at ptr.pid).in_adj.pairs ptr.w) := by
  have ho := pairs_nodup (tg.vertex_at ptr.pid).out_adj ptr.w hout
  have hi := pairs_nodup (tg.vertex_at ptr.pid).in_adj ptr.w hin
  exact dedup_append_card _ _ ho hi

/-- Instantiation of the amended degree bound at vertex pid 1 of the
test graph with window `[0, 2)`, where the adjacency keys are
concretely duplicate-free. -/
theorem claim_both_degree_amended_witness :
    ((make_mini_graph.vertex_at 1).out_adj.map (fun p => p.1)).Nodup
  ∧ ((make_mini_graph.vertex_at 1).in_adj.map (fun p => p.1)).Nodup
  ∧ make_mini_graph.degree ⟨1, some ⟨0, 2⟩⟩ Direction.BOTH
      ≤ make_mini_graph.degree ⟨1, some ⟨0, 2⟩⟩ Direction.OUT
        + make_mini_graph.degree ⟨1, some ⟨0, 2⟩⟩ Direction.IN :=
  ⟨by decide, by decide,
   (claim_both_degree_amended make_mini_graph ⟨1, some ⟨0, 2⟩⟩ (by decide) (by decide)).1⟩

/-- Modelled from the spec: `docbrown_db`'s `Graph` is not under
`src/`.  The sharded graph is a sequence of independent shard stores;
the routing function places each gid in exactly one shard and
aggregation concatenates per-shard results in shard order (spec
section 4.5). -/
structure ShardedGraph where
  shards : List TG

/-- Modelled from the spec: the global edge count aggregates the
per-shard counts, each shard counting the edges stored on the src
side — one out-adjacency entry per edge, so a remote edge is counted
only in the shard owning its source and the mirroring in-adjacency
entry of the destination shard is not counted (spec sections 4.4-4.5). -/
def ShardedGraph.num_edges (g : ShardedGraph) : Nat :=
  (g.shards.map (fun s => (s.vertices.map (fun v => v.out_adj.length)).sum)).sum

/-- Modelled from the spec: the global vertex iterator concatenates the
per-shard iterators in shard order (spec section 4.5); each vertex view
is paired with its shard, which it queries for degrees. -/
def ShardedGraph.global_vertices (g : ShardedGraph) : List (TG × VertexPointer) :=
  (g.shards.map (fun s => (baseGVI s).iter_vertices.map (fun v => (s, v)))).flatten

/-- Sum of `out_degree(v)` over all vertices of the graph, each degree
evaluated through the view layer against the vertex's own shard — the
computation of the `hulongbay` example's `try_main`. -/
def ShardedGraph.sum_out_degrees (g : ShardedGraph) : Nat :=
  (g.global_vertices.map (fun p => (baseGVI p.1).degree p.2 Direction.OUT)).sum

/-- The TAdjSet invariant of spec section 3: a listed neighbour has at
least one entry in its cell. -/
abbrev TG.out_cells_nonempty (tg : TG) : Prop :=
  ∀ v ∈ tg.vertices, ∀ p ∈ v.out_adj, p.2 ≠ []

/-- A sharded graph is well formed when every shard satisfies the
adjacency-cell invariant. -/
abbrev ShardedGraph.wf (g : ShardedGraph) : Prop :=
  ∀ s ∈ g.shards, s.out_cells_nonempty

/-- With the cell invariant, the unwindowed neighbour count of an
adjacency set equals the number of stored entries. -/
theorem pairs_none_length (adj : TAdjSet) (h : ∀ p ∈ adj, p.2 ≠ []) :
    (adj.pairs none).length = adj.length := by
  induction adj with
  | nil => rfl
  | cons a rest ih =>
      have ha := h a (List.mem_cons_self a rest)
      cases hc : a.2 with
      | nil => exact absurd hc ha
      | cons te ctl =>
          have hfw : firstInWindow none a.2 = some te := by
            rw [hc]
            rfl
          have he : TAdjSet.pairs (a :: rest) none = (a.1, te.2) :: TAdjSet.pairs rest none := by
            simp [TAdjSet.pairs, List.filterMap_cons, hfw]
          rw [he, List.length_cons, List.length_cons]
          exact congrArg Nat.succ (ih (fun p hp => h p (List.mem_cons_of_mem a hp)))

/-- Summing a function of the elements over the index range of a list
equals summing it over the list. -/
theorem sum_range_getD {α : Type} (f : α → Nat) (d : α) :
    ∀ l : List α, ((List.range l.length).map (fun i => f (l.getD i d))).sum = (l.map f).sum := by
  intro l
  induction l with
  | nil => rfl
  | cons x xs ih =>
      rw [List.length_cons, List.range_succ_eq_map, List.map_cons, List.map_map,
        List.map_cons, List.sum_cons, List.sum_cons]
      have he : ((fun i => f ((x :: xs).getD i d)) ∘ Nat.succ) = fun i => f (xs.getD i d) := by
        funext i
        rfl
      rw [he, ih]
      rfl

/-- Per shard, the view-layer sum of out-degrees equals the number of
stored src-side adjacency entries. -/
theorem shard_out_degree_sum (tg : TG) (h : tg.out_cells_nonempty) :
    ((baseGVI tg).iter_vertices.map (fun v => (baseGVI tg).degree v Direction.OUT)).sum
      = (tg.vertices.map (fun v => v.out_adj.length)).sum := by
  show ((tg.iter_vertices).map (fun v => tg.degree v Direction.OUT)).sum = _
  unfold TG.iter_vertices
  rw [List.map_map]
  have he : ((fun v => tg.degree v Direction.OUT) ∘ fun pid => (⟨pid, none⟩ : VertexPointer))
      = fun i => (fun v => (TAdjSet.pairs v.out_adj none).length) (tg.vertices.getD i emptyVertex) := by
    funext pid
    rfl
  rw [he, sum_range_getD (fun v => (TAdjSet.pairs v.out_adj none).length) emptyVertex tg.vertices]
  exact congrArg List.sum (List.map_congr_left (fun v hv => pairs_none_length v.out_adj (h v hv)))

/-- Splitting the global degree sum at the first shard. -/
theorem sum_out_degrees_cons (s : TG) (rest : List TG) :
    (ShardedGraph.mk (s :: rest)).sum_out_degrees
      = ((baseGVI s).iter_vertices.map (fun v => (baseGVI s).degree v Direction.OUT)).sum
        + (ShardedGraph.mk rest).sum_out_degrees := by
  unfold ShardedGraph.sum_out_degrees ShardedGraph.global_vertices
  rw [List.map_cons, List.flatten_cons, List.map_append, List.sum_append, List.map_map]
  rfl

/-- C4: for every well-formed sharded graph, the sum over all vertices
of `out_degree(v)` computed through the view layer equals
`num_edges()`, which counts each edge once on the src side (a remote
edge contributes only its out-adjacency entry in the source's shard). -/
theorem claim_sum_out_degrees (g : ShardedGraph) (h : g.wf) :
    g.sum_out_degrees = g.num_edges := by
  obtain ⟨shards⟩ := g
  induction shards with
  | nil => rfl
  | cons s rest ih =>
      have hs : s.out_cells_nonempty := h s (List.mem_cons_self s rest)
      have hrest : ∀ s2 ∈ rest, s2.out_cells_nonempty :=
        fun s2 hs2 => h s2 (List.mem_cons_of_mem s hs2)
      rw [sum_out_degrees_cons, shard_out_degree_sum s hs, ih hrest]
      rfl

/-- Two-shard witness graph with one remote edge 1→2: the source shard
holds the out entry with a remote marker, the destination shard the
mirroring in entry, which must not be counted. -/
def crossShardPair : ShardedGraph :=
  ⟨[⟨[⟨1, [], [(5, [(0, AdjEdge.remote 2)])], []⟩], [(1, 0)], [], [(0, [0])]⟩,
    ⟨[⟨2, [], [], [(9, [(0, AdjEdge.remote 1)])]⟩], [(2, 0)], [], [(0, [0])]⟩]⟩

/-- Instantiation of the degree-sum identity on the two-shard witness
graph: the remote edge is counted exactly once, on the src side. -/
theorem claim_sum_out_degrees_witness :
    ShardedGraph.wf crossShardPair
  ∧ crossShardPair.sum_out_degrees = 1
  ∧ crossShardPair.num_edges = 1 :=
  ⟨by decide,
   (claim_sum_out_degrees crossShardPair (by decide)).trans (by decide),
   by decide⟩
